import Mathlib

/-!
Shallow embedding of `scripts/compose_scenes.py` (FFmpeg scene composer and
merger) together with the dialogue-record shape produced by
`scripts/generate_tts.py`.

Modelling conventions:
* Python floats are modelled as rationals (`ℚ`); the decimal literals `0.2`,
  `0.3`, `5.0` of the source are the exact rationals 1/5, 3/10, 5.
* The filesystem and the two external programs (`ffprobe`, `ffmpeg`) are an
  abstract environment `Env`: `fexists` is `Path.exists`, `ffprobeRun` is the
  `subprocess.run` of `ffprobe` (`none` = the call raised, `some out` = the
  captured stdout), `parseFloat` is Python `float()` on a string (`none` = it
  raised), `encodeOk` tells whether an `ffmpeg` argv exits with status 0, and
  `absolute` is `Path(...).absolute()` (it depends on the working directory).
* A function's observable behaviour is its return value plus the list of
  `ffmpeg` argv vectors it runs, in order (`ffprobe` calls go through
  `get_media_duration`, hence through `Env`, and are not listed).
-/

namespace ComposeScenes

/-- One dialogue-audio record, as built by `process_script` in
`generate_tts.py` (keys `path`, `character`, `text`, `scene_id`, `order`). -/
structure AudioInfo where
  path : String
  character : String
  text : String
  scene_id : Nat
  order : Nat
  deriving Repr, DecidableEq

/-- The ambient filesystem and external-process behaviour. -/
structure Env where
  fexists : String → Bool
  ffprobeRun : String → Option String
  parseFloat : String → Option ℚ
  encodeOk : List String → Bool
  absolute : String → String

/-- Python `int()` on a rational value: truncation toward zero. -/
def pyInt (q : ℚ) : Int :=
  if 0 ≤ q then ⌊q⌋ else -⌊-q⌋

/-- Python `str.strip()` with no argument: remove leading and trailing
whitespace. -/
def pyStrip (s : String) : String :=
  ⟨((s.data.dropWhile Char.isWhitespace).reverse.dropWhile Char.isWhitespace).reverse⟩

/-- `get_media_duration` (compose_scenes.py lines 24–35): run `ffprobe`,
strip its stdout and parse it as a float; on any failure anywhere in the
`try` block return the default `5.0`. -/
def get_media_duration (env : Env) (file_path : String) : ℚ :=
  match env.ffprobeRun file_path with
  | none => 5
  | some out =>
    match env.parseFloat (pyStrip out) with
    | none => 5
    | some q => q

/-- `COMPOSED_DIR / f"scene_{scene_id}_composed.mp4"` (line 43). -/
def composedPath (scene_id : Nat) : String :=
  "outputs/composed/scene_" ++ toString scene_id ++ "_composed.mp4"

/-- The video-only passthrough command
`ffmpeg -y -i video -c:v copy -an out` (lines 51–55, 86–90, 118–122). -/
def copyCmd (video_path out : String) : List String :=
  ["ffmpeg", "-y", "-i", video_path, "-c:v", "copy", "-an", out]

/-- The adelay filter entry built at line 78 for original list index `idx`
(ffmpeg input reference `audio_idx = idx + 1`) at cursor time `t`:
`f"[{audio_idx}:a]adelay={int(t*1000)}|{int(t*1000)}[a{idx}]"`. -/
def adelayPart (audio_idx idx : Nat) (t : ℚ) : String :=
  "[" ++ toString audio_idx ++ ":a]adelay=" ++ toString (pyInt (t * 1000)) ++
    "|" ++ toString (pyInt (t * 1000)) ++ "[a" ++ toString idx ++ "]"

/-- The mutable state of the scheduling loop of `compose_scene`
(lines 64–82): `audio_inputs`, `filter_parts`, `current_time`, plus a ghost
record `offsets` of the cursor value at which each surviving clip was
scheduled (the `start_offset` of the spec's `ScheduledClip`). -/
structure LoopState where
  audioInputs : List String
  filterParts : List String
  offsets : List ℚ
  currentTime : ℚ
  deriving Repr, DecidableEq

/-- The loop of lines 69–82: for each clip in input order, skip it when its
file does not exist; otherwise append its `-i` input, append its adelay
filter entry at the current cursor, and advance the cursor by the probed
duration plus the 0.3 s gap. -/
def composeLoop (env : Env) : List AudioInfo → Nat → LoopState → LoopState
  | [], _, st => st
  | a :: rest, idx, st =>
    if env.fexists a.path then
      composeLoop env rest (idx + 1)
        { audioInputs := st.audioInputs ++ ["-i", a.path]
          filterParts := st.filterParts ++ [adelayPart (idx + 1) idx st.currentTime]
          offsets := st.offsets ++ [st.currentTime]
          currentTime := st.currentTime + get_media_duration env a.path + 0.3 }
    else
      composeLoop env rest (idx + 1) st

/-- Initial loop state (lines 65–67): `audio_inputs = ["-i", video_path]`,
no filter parts, cursor at the 0.2 s lead-in. -/
def initState (video_path : String) : LoopState :=
  { audioInputs := ["-i", video_path], filterParts := [], offsets := [], currentTime := 0.2 }

/-- Lines 94–97: the amix stage consuming labels `[a0]…[a(k-1)]` where `k`
is the number of filter parts, and the `;`-joined filter_complex. -/
def mixFilterComplex (filterParts : List String) : String :=
  let audio_labels := String.join ((List.range filterParts.length).map
    (fun i => "[a" ++ toString i ++ "]"))
  String.intercalate ";"
    (filterParts ++ [audio_labels ++ "amix=inputs=" ++ toString filterParts.length ++
      ":duration=longest[aout]"])

/-- The full mix-encode argv of lines 100–110, from a finished loop state. -/
def mixCmdOf (st : LoopState) (out : String) : List String :=
  ["ffmpeg", "-y"] ++ st.audioInputs ++
    ["-filter_complex", mixFilterComplex st.filterParts,
     "-map", "0:v", "-map", "[aout]",
     "-c:v", "libx264", "-preset", "fast",
     "-c:a", "aac", "-b:a", "128k",
     "-shortest", out]

/-- The mix-encode argv `compose_scene` runs for a given scene. -/
def mixCmd (env : Env) (scene_id : Nat) (video_path : String)
    (audio_files : List AudioInfo) : List String :=
  mixCmdOf (composeLoop env audio_files 0 (initState video_path)) (composedPath scene_id)

/-- `compose_scene` (lines 38–124). Returns the Python return value and the
list of `ffmpeg` argvs run, in order. -/
def compose_scene (env : Env) (scene_id : Nat) (video_path : String)
    (audio_files : List AudioInfo) : Option String × List (List String) :=
  let output_path := composedPath scene_id
  if env.fexists video_path = false then
    (none, [])
  else if audio_files.isEmpty then
    (some output_path, [copyCmd video_path output_path])
  else
    -- line 59 computes `video_duration`; the value is never used afterwards
    let _video_duration := get_media_duration env video_path
    let st := composeLoop env audio_files 0 (initState video_path)
    if st.filterParts.isEmpty then
      (some output_path, [copyCmd video_path output_path])
    else
      let cmd := mixCmdOf st output_path
      if env.encodeOk cmd then
        (some output_path, [cmd])
      else
        (some output_path, [cmd, copyCmd video_path output_path])

/-- `FINAL_DIR / "final_reel.mp4"` (line 132). -/
def finalReelPath : String := "outputs/final/final_reel.mp4"

/-- Line 135: `[v for v in composed_videos if v and Path(v).exists()]` —
keep the entries that are truthy (not `None`, not the empty string) and
reference an existing file, in order. -/
def validVideos (env : Env) (composed_videos : List (Option String)) : List String :=
  composed_videos.filterMap (fun v =>
    match v with
    | none => none
    | some s => if s = "" then none else if env.fexists s then some s else none)

/-- One line of the concat manifest (line 145):
`f"file '{Path(video).absolute()}'"` (the trailing newline is the line
separator and is not part of the line). -/
def manifestLine (env : Env) (video : String) : String :=
  "file " ++ Char.toString (Char.ofNat 39) ++ env.absolute video ++ Char.toString (Char.ofNat 39)

/-- The merge-encode argv of lines 148–157. -/
def mergeCmd : List String :=
  ["ffmpeg", "-y",
   "-f", "concat", "-safe", "0",
   "-i", "outputs/final/concat_list.txt",
   "-vf", "scale=1080:1920:force_original_aspect_ratio=decrease,pad=1080:1920:(ow-iw)/2:(oh-ih)/2,setsar=1",
   "-c:v", "libx264", "-preset", "medium", "-crf", "23",
   "-c:a", "aac", "-b:a", "128k",
   "-movflags", "+faststart",
   finalReelPath]

/-- Observable outcome of `merge_scenes`: the Python return value, the lines
written to the concat manifest (`none` when the function returned before
writing it), and the `ffmpeg` argvs run. -/
structure MergeResult where
  result : Option String
  manifest : Option (List String)
  cmds : List (List String)
  deriving Repr, DecidableEq

/-- `merge_scenes` (lines 127–171): filter to valid videos, fail with `None`
when none remain, otherwise write the manifest, run the single merge encode,
and return `None` on a non-zero exit status (no retry) or the final reel
path on success. -/
def merge_scenes (env : Env) (composed_videos : List (Option String)) : MergeResult :=
  let valid := validVideos env composed_videos
  if valid.isEmpty then
    { result := none, manifest := none, cmds := [] }
  else
    let manifest := valid.map (manifestLine env)
    if env.encodeOk mergeCmd then
      -- line 167 probes the output duration; the value is only printed
      let _duration := get_media_duration env finalReelPath
      { result := some finalReelPath, manifest := some manifest, cmds := [mergeCmd] }
    else
      { result := none, manifest := some manifest, cmds := [mergeCmd] }

/-- The dict comprehension of line 197 followed by `.get(scene_id, [])`
(line 205): the audio files of the last entry with the given scene id, or
`[]` when there is none. -/
def audioByScene (audio_data : List (Nat × List AudioInfo)) (scene_id : Nat) :
    List AudioInfo :=
  match audio_data.reverse.find? (fun s => s.1 = scene_id) with
  | some s => s.2
  | none => []

/-- The per-scene loop of `main` (lines 202–209): scene ids are 1-based
positions in the video list; each scene is composed with the audio files
looked up by its id, and the results (possibly `None`) are collected in
order. -/
def composeAll (env : Env) (video_paths : List String)
    (lookup : Nat → List AudioInfo) : List (Option String) :=
  (List.range video_paths.length).zip video_paths |>.map
    (fun p => (compose_scene env (p.1 + 1) p.2 (lookup (p.1 + 1))).1)

/-- Observable outcome of `main` past composition: the text written to the
sidecar `outputs/final_reel_path.txt` (`none` when it is not written) and
the process exit status. -/
structure MainOut where
  sidecar : Option String
  exitCode : Nat
  deriving Repr, DecidableEq

/-- Lines 212–220 of `main`: merge the composed scenes; when the result is
truthy write its path to the sidecar file and exit 0, otherwise exit 1
without writing the sidecar. -/
def mainRun (env : Env) (video_paths : List String)
    (audio_data : List (Nat × List AudioInfo)) : MainOut :=
  let composed := composeAll env video_paths (audioByScene audio_data)
  match (merge_scenes env composed).result with
  | none => { sidecar := none, exitCode := 1 }
  | some p => if p = "" then { sidecar := none, exitCode := 1 }
              else { sidecar := some p, exitCode := 0 }

/-! ### Denotations of the scheduling loop

`composeLoop` threads one state through the list; the following functions
compute each component of the final state directly, and
`composeLoop_spec` proves they agree with the loop. -/

/-- The `-i path` pairs appended by the loop: one pair per existing clip,
in input order. -/
def inputsFrom (env : Env) : List AudioInfo → List String
  | [] => []
  | a :: rest =>
    if env.fexists a.path then ["-i", a.path] ++ inputsFrom env rest
    else inputsFrom env rest

/-- The adelay filter entries appended by the loop, starting at original
index `idx` and cursor `t`. -/
def partsFrom (env : Env) : List AudioInfo → Nat → ℚ → List String
  | [], _, _ => []
  | a :: rest, idx, t =>
    if env.fexists a.path then
      adelayPart (idx + 1) idx t ::
        partsFrom env rest (idx + 1) (t + get_media_duration env a.path + 0.3)
    else
      partsFrom env rest (idx + 1) t

/-- The start offsets assigned by the loop to the existing clips, starting
at cursor `t`. -/
def offsetsFrom (env : Env) : List AudioInfo → ℚ → List ℚ
  | [], _ => []
  | a :: rest, t =>
    if env.fexists a.path then
      t :: offsetsFrom env rest (t + get_media_duration env a.path + 0.3)
    else
      offsetsFrom env rest t

/-- The final cursor value of the loop started at cursor `t`. -/
def timeFrom (env : Env) : List AudioInfo → ℚ → ℚ
  | [], t => t
  | a :: rest, t =>
    if env.fexists a.path then
      timeFrom env rest (t + get_media_duration env a.path + 0.3)
    else
      timeFrom env rest t

/-- The start offsets `compose_scene` schedules for a dialogue list: the
cursor starts at the 0.2 s lead-in and, for each existing clip, the offset
is the cursor at that point. -/
def sceneOffsets (env : Env) (audio_files : List AudioInfo) : List ℚ :=
  offsetsFrom env audio_files 0.2

theorem composeLoop_spec (env : Env) :
    ∀ (l : List AudioInfo) (idx : Nat) (st : LoopState),
    composeLoop env l idx st =
      { audioInputs := st.audioInputs ++ inputsFrom env l
        filterParts := st.filterParts ++ partsFrom env l idx st.currentTime
        offsets := st.offsets ++ offsetsFrom env l st.currentTime
        currentTime := timeFrom env l st.currentTime } := by
  intro l
  induction l with
  | nil => intro idx st; simp [composeLoop, inputsFrom, partsFrom, offsetsFrom, timeFrom]
  | cons a rest ih =>
    intro idx st
    by_cases h : env.fexists a.path
    · simp only [composeLoop, inputsFrom, partsFrom, offsetsFrom, timeFrom, h, if_pos]
      rw [ih]
      simp [List.append_assoc]
    · simp only [composeLoop, inputsFrom, partsFrom, offsetsFrom, timeFrom, h]
      exact ih (idx + 1) st

theorem partsFrom_eq_nil_iff (env : Env) :
    ∀ (l : List AudioInfo) (idx : Nat) (t : ℚ),
    partsFrom env l idx t = [] ↔ ∀ a ∈ l, env.fexists a.path = false := by
  intro l
  induction l with
  | nil => intro idx t; simp [partsFrom]
  | cons a rest ih =>
    intro idx t
    by_cases h : env.fexists a.path
    · simp [partsFrom, h]
    · simp only [partsFrom, h, if_neg, Bool.not_eq_true]
      rw [ih]
      simp [h]

/-- The per-clip advance of the cursor: probed duration plus the 0.3 s gap. -/
def clipAdvance (env : Env) (a : AudioInfo) : ℚ :=
  get_media_duration env a.path + 0.3

theorem offsetsFrom_length_of_all_exist (env : Env) :
    ∀ (l : List AudioInfo) (t : ℚ), (∀ a ∈ l, env.fexists a.path = true) →
    (offsetsFrom env l t).length = l.length := by
  intro l
  induction l with
  | nil => intro t _; simp [offsetsFrom]
  | cons a rest ih =>
    intro t h
    have ha : env.fexists a.path = true := h a (List.mem_cons_self a rest)
    have hrest : ∀ b ∈ rest, env.fexists b.path = true :=
      fun b hb => h b (List.mem_cons_of_mem a hb)
    simp [offsetsFrom, ha, ih _ hrest]

theorem offsetsFrom_get_of_all_exist (env : Env) :
    ∀ (l : List AudioInfo) (t : ℚ), (∀ a ∈ l, env.fexists a.path = true) →
    ∀ (i : Nat) (hi : i < (offsetsFrom env l t).length),
    (offsetsFrom env l t).get ⟨i, hi⟩
      = t + ((l.take i).map (clipAdvance env)).sum := by
  intro l
  induction l with
  | nil => intro t _ i hi; simp [offsetsFrom] at hi
  | cons a rest ih =>
    intro t h i hi
    have ha : env.fexists a.path = true := h a (List.mem_cons_self a rest)
    have hrest : ∀ b ∈ rest, env.fexists b.path = true :=
      fun b hb => h b (List.mem_cons_of_mem a hb)
    match i with
    | 0 => simp [offsetsFrom, ha]
    | Nat.succ k =>
      have hk : k < (offsetsFrom env rest (t + get_media_duration env a.path + 0.3)).length := by
        have : offsetsFrom env (a :: rest) t
            = t :: offsetsFrom env rest (t + get_media_duration env a.path + 0.3) := by
          simp [offsetsFrom, ha]
        rw [this] at hi
        exact Nat.lt_of_succ_lt_succ (by simpa using hi)
      have hstep := ih (t + get_media_duration env a.path + 0.3) hrest k hk
      have hcons : offsetsFrom env (a :: rest) t
          = t :: offsetsFrom env rest (t + get_media_duration env a.path + 0.3) := by
        simp [offsetsFrom, ha]
      have hget : (offsetsFrom env (a :: rest) t).get ⟨k + 1, hi⟩
          = (offsetsFrom env rest (t + get_media_duration env a.path + 0.3)).get ⟨k, hk⟩ := by
        rw [List.get_of_eq hcons ⟨k + 1, hi⟩]
        rfl
      rw [hget, hstep]
      simp only [List.take_succ_cons, List.map_cons, List.sum_cons, clipAdvance]
      ring

/-- Strict monotonicity of a list of rationals follows from strict growth
at every adjacent pair. -/
theorem list_get_lt_of_adjacent (xs : List ℚ)
    (hadj : ∀ k (hk : k + 1 < xs.length),
      xs.get ⟨k, Nat.lt_of_succ_lt hk⟩ < xs.get ⟨k + 1, hk⟩) :
    ∀ (j i : Nat) (hij : i < j) (hj : j < xs.length),
    xs.get ⟨i, Nat.lt_trans hij hj⟩ < xs.get ⟨j, hj⟩ := by
  intro j
  induction j with
  | zero => intro i hij hj; exact absurd hij (Nat.not_lt_zero i)
  | succ k ih =>
    intro i hij hj
    rcases Nat.lt_succ_iff_lt_or_eq.mp hij with h | h
    · exact lt_trans (ih i h (Nat.lt_of_succ_lt hj)) (hadj k hj)
    · subst h
      exact hadj i hj

/-- C1: for a scene whose dialogue clip files all exist, with probed
durations all ≥ 0, the scheduling loop of `compose_scene` assigns the first
clip the start offset 0.2 and each subsequent clip the previous offset plus
the previous clip's probed duration plus 0.3; consequently the offsets
strictly increase with position (and consecutive offsets differ by exactly,
hence at least, the previous duration plus 0.3). -/
theorem C1_scheduler_offsets (env : Env) (audio_files : List AudioInfo)
    (hex : ∀ a ∈ audio_files, env.fexists a.path = true)
    (hd : ∀ a ∈ audio_files, 0 ≤ get_media_duration env a.path) :
    (∀ video_path : String,
      (composeLoop env audio_files 0 (initState video_path)).offsets
        = sceneOffsets env audio_files) ∧
    (sceneOffsets env audio_files).length = audio_files.length ∧
    (∀ h0 : 0 < (sceneOffsets env audio_files).length,
      (sceneOffsets env audio_files).get ⟨0, h0⟩ = 0.2) ∧
    (∀ (i : Nat) (hi1 : i + 1 < (sceneOffsets env audio_files).length)
        (hif : i < audio_files.length),
      (sceneOffsets env audio_files).get ⟨i + 1, hi1⟩
        = (sceneOffsets env audio_files).get ⟨i, Nat.lt_of_succ_lt hi1⟩
          + get_media_duration env (audio_files.get ⟨i, hif⟩).path + 0.3) ∧
    (∀ (i j : Nat) (hij : i < j) (hj : j < (sceneOffsets env audio_files).length),
      (sceneOffsets env audio_files).get ⟨i, Nat.lt_trans hij hj⟩
        < (sceneOffsets env audio_files).get ⟨j, hj⟩) := by
  have hlen : (sceneOffsets env audio_files).length = audio_files.length :=
    offsetsFrom_length_of_all_exist env audio_files 0.2 hex
  have hget : ∀ (i : Nat) (hi : i < (sceneOffsets env audio_files).length),
      (sceneOffsets env audio_files).get ⟨i, hi⟩
        = 0.2 + ((audio_files.take i).map (clipAdvance env)).sum :=
    offsetsFrom_get_of_all_exist env audio_files 0.2 hex
  have hadjEq : ∀ (i : Nat) (hi1 : i + 1 < (sceneOffsets env audio_files).length)
      (hif : i < audio_files.length),
      (sceneOffsets env audio_files).get ⟨i + 1, hi1⟩
        = (sceneOffsets env audio_files).get ⟨i, Nat.lt_of_succ_lt hi1⟩
          + get_media_duration env (audio_files.get ⟨i, hif⟩).path + 0.3 := by
    intro i hi1 hif
    have hL : i < (audio_files.map (clipAdvance env)).length := by simpa using hif
    rw [hget _ hi1, hget _ (Nat.lt_of_succ_lt hi1), List.map_take, List.map_take,
      List.sum_take_succ _ i hL]
    simp only [List.getElem_map, clipAdvance, List.get_eq_getElem]
    ring
  refine ⟨?_, hlen, ?_, hadjEq, ?_⟩
  · intro video_path
    rw [composeLoop_spec]
    simp [initState, sceneOffsets]
  · intro h0
    simpa using hget 0 h0
  · intro i j hij hj
    refine list_get_lt_of_adjacent _ ?_ j i hij hj
    intro k hk
    have hkf : k < audio_files.length := by
      rw [hlen] at hk
      exact Nat.lt_of_succ_lt hk
    rw [hadjEq k hk hkf]
    have hd0 : 0 ≤ get_media_duration env (audio_files.get ⟨k, hkf⟩).path :=
      hd _ (audio_files.get_mem _ _)
    have h3 : (0 : ℚ) < 0.3 := by norm_num
    linarith

/-- Environment for the C1 example: both clip files exist, `ffprobe`
reports 2.0 s for the first and 3.0 s for the second. -/
def exEnvC1 : Env :=
  { fexists := fun _ => true
    ffprobeRun := fun p => if p = "outputs/audio/scene1_maa_1.mp3" then some "2.0" else some "3.0"
    parseFloat := fun s => if s = "2.0" then some 2 else if s = "3.0" then some 3 else none
    encodeOk := fun _ => true
    absolute := fun s => s }

/-- The two dialogue clips of the C1 example. -/
def exFilesC1 : List AudioInfo :=
  [{ path := "outputs/audio/scene1_maa_1.mp3", character := "maa", text := "t1",
     scene_id := 1, order := 1 },
   { path := "outputs/audio/scene1_baap_2.mp3", character := "baap", text := "t2",
     scene_id := 1, order := 2 }]

/-- Witness for C1: probed durations 2.0 and 3.0 yield the offsets 0.2 and
2.5, and the theorem applies to this concrete scene. -/
theorem C1_scheduler_offsets_witness :
    sceneOffsets exEnvC1 exFilesC1 = [0.2, 2.5] ∧
    (sceneOffsets exEnvC1 exFilesC1).length = exFilesC1.length := by
  have hdur1 : get_media_duration exEnvC1 "outputs/audio/scene1_maa_1.mp3" = 2 := rfl
  have hfe : ∀ p, exEnvC1.fexists p = true := fun _ => rfl
  constructor
  · simp [sceneOffsets, offsetsFrom, exFilesC1, hfe, hdur1]
    norm_num
  · exact (C1_scheduler_offsets exEnvC1 exFilesC1 (fun a _ => rfl)
      (by
        intro a ha
        simp [exFilesC1] at ha
        rcases ha with rfl | rfl
        · rw [hdur1]; norm_num
        · have : get_media_duration exEnvC1 "outputs/audio/scene1_baap_2.mp3" = 3 := rfl
          rw [this]; norm_num)).2.1

/-- Filter parts of the loop state reached by `compose_scene` are empty
exactly when no dialogue file exists. -/
theorem compose_filterParts_nil_iff (env : Env) (video_path : String)
    (audio_files : List AudioInfo) :
    (composeLoop env audio_files 0 (initState video_path)).filterParts = []
      ↔ ∀ a ∈ audio_files, env.fexists a.path = false := by
  rw [composeLoop_spec]
  simp only [initState, List.nil_append]
  exact partsFrom_eq_nil_iff env audio_files 0 0.2

/-- C6: for a scene whose video exists and whose dialogue list is empty or
consists entirely of missing files, `compose_scene` runs exactly the
video-only passthrough command (video stream copied, audio disabled by
`-an`) and returns the composed output path. -/
theorem C6_passthrough_when_no_usable_audio (env : Env) (scene_id : Nat)
    (video_path : String) (audio_files : List AudioInfo)
    (hv : env.fexists video_path = true)
    (hmiss : audio_files = [] ∨ ∀ a ∈ audio_files, env.fexists a.path = false) :
    compose_scene env scene_id video_path audio_files
      = (some (composedPath scene_id), [copyCmd video_path (composedPath scene_id)]) := by
  by_cases he : audio_files.isEmpty
  · simp [compose_scene, hv, he]
  · have hall : ∀ a ∈ audio_files, env.fexists a.path = false := by
      rcases hmiss with h | h
      · subst h; simp at he
      · exact h
    have hpf : (composeLoop env audio_files 0 (initState video_path)).filterParts = [] :=
      (compose_filterParts_nil_iff env video_path audio_files).mpr hall
    simp [compose_scene, hv, he, hpf]

/-- Environment for the C6 witness: only the scene video exists. -/
def exEnvC6 : Env :=
  { fexists := fun p => p == "outputs/videos/scene_4.mp4"
    ffprobeRun := fun _ => none
    parseFloat := fun _ => none
    encodeOk := fun _ => true
    absolute := fun s => s }

/-- A dialogue clip whose audio file is missing, for the C6 witness. -/
def exClipC6 : AudioInfo :=
  { path := "outputs/audio/scene4_hero_1.mp3", character := "hero", text := "t",
    scene_id := 4, order := 1 }

/-- Witness for C6: a scene whose single dialogue file is missing takes
the passthrough path. -/
theorem C6_passthrough_when_no_usable_audio_witness :
    compose_scene exEnvC6 4 "outputs/videos/scene_4.mp4" [exClipC6]
      = (some (composedPath 4),
         [copyCmd "outputs/videos/scene_4.mp4" (composedPath 4)]) :=
  C6_passthrough_when_no_usable_audio exEnvC6 4 "outputs/videos/scene_4.mp4" [exClipC6]
    rfl (Or.inr (by intro a ha; simp at ha; subst ha; rfl))

/-- Environment for the C5 example: `video2.mp4` is missing, every other
path (including the composed outputs) exists. -/
def exEnvC5 : Env :=
  { fexists := fun p => !(p == "video2.mp4")
    ffprobeRun := fun _ => none
    parseFloat := fun _ => none
    encodeOk := fun _ => true
    absolute := fun s => s }

/-- C5: a scene whose video file does not exist yields no composed output
and runs no command, and in the three-scene example
`[video1 exists, video2 missing, video3 exists]` with no dialogue data the
merger's filtered input is exactly the two composed entries of scenes 1 and
3, in order. -/
theorem C5_missing_video_dropped :
    (∀ (env : Env) (scene_id : Nat) (video_path : String) (audio_files : List AudioInfo),
      env.fexists video_path = false →
      compose_scene env scene_id video_path audio_files = (none, [])) ∧
    validVideos exEnvC5
        (composeAll exEnvC5 ["video1.mp4", "video2.mp4", "video3.mp4"] (audioByScene []))
      = [composedPath 1, composedPath 3] := by
  constructor
  · intro env scene_id video_path audio_files h
    simp [compose_scene, h]
  · rfl

/-- Witness for C5: the missing-video hypothesis discharged at
`video2.mp4` in the example environment. -/
theorem C5_missing_video_dropped_witness :
    compose_scene exEnvC5 2 "video2.mp4" [] = (none, []) :=
  C5_missing_video_dropped.1 exEnvC5 2 "video2.mp4" [] rfl

/-- C3: when the scene video exists, some dialogue file exists (so the mix
path is taken) and the mix encode exits non-zero, `compose_scene` runs the
video-only passthrough as a fallback after the failed mix command and still
returns the composed output path; moreover, whenever the video exists
`compose_scene` never returns `none`, whatever the dialogue list and the
encode outcomes. -/
theorem C3_encode_failure_degrades_to_silent (env : Env) (scene_id : Nat)
    (video_path : String) (audio_files : List AudioInfo)
    (hv : env.fexists video_path = true) :
    ((∃ a ∈ audio_files, env.fexists a.path = true) →
      env.encodeOk (mixCmd env scene_id video_path audio_files) = false →
      compose_scene env scene_id video_path audio_files
        = (some (composedPath scene_id),
           [mixCmd env scene_id video_path audio_files,
            copyCmd video_path (composedPath scene_id)])) ∧
    (compose_scene env scene_id video_path audio_files).1 = some (composedPath scene_id) := by
  constructor
  · rintro ⟨a, ha, hae⟩ henc
    have hne : audio_files.isEmpty = false := by
      cases audio_files with
      | nil => cases ha
      | cons b rest => rfl
    have hpf : ¬ (composeLoop env audio_files 0 (initState video_path)).filterParts = [] := by
      rw [compose_filterParts_nil_iff]
      intro hall
      rw [hall a ha] at hae
      cases hae
    simp only [compose_scene, hv, Bool.true_eq_false, if_false, hne, Bool.false_eq_true,
      List.isEmpty_eq_false_iff_exists_mem] at *
    simp only [compose_scene, mixCmd] at *
    rw [if_neg (by simp [hpf]), if_neg (by simp [henc])]
  · by_cases he : audio_files.isEmpty
    · simp [compose_scene, hv, he]
    · by_cases hpf : (composeLoop env audio_files 0 (initState video_path)).filterParts.isEmpty
      · simp [compose_scene, hv, he, hpf]
      · by_cases henc : env.encodeOk
          (mixCmdOf (composeLoop env audio_files 0 (initState video_path)) (composedPath scene_id))
        · simp [compose_scene, hv, he, hpf, henc]
        · simp [compose_scene, hv, he, hpf, henc]

/-- Environment for the C3 witness: every file exists, every encode fails. -/
def exEnvC3 : Env :=
  { fexists := fun _ => true
    ffprobeRun := fun _ => none
    parseFloat := fun _ => none
    encodeOk := fun _ => false
    absolute := fun s => s }

/-- A dialogue clip whose audio file exists, for the C3 witness. -/
def exClipC3 : AudioInfo :=
  { path := "outputs/audio/scene7_dost_1.mp3", character := "dost", text := "t",
    scene_id := 7, order := 1 }

/-- Witness for C3: with an existing video, one existing dialogue clip and
a failing mix encode, `compose_scene` runs the mix command then the
passthrough fallback and returns the composed path. -/
theorem C3_encode_failure_degrades_to_silent_witness :
    compose_scene exEnvC3 7 "outputs/videos/scene_7.mp4" [exClipC3]
      = (some (composedPath 7),
         [mixCmd exEnvC3 7 "outputs/videos/scene_7.mp4" [exClipC3],
          copyCmd "outputs/videos/scene_7.mp4" (composedPath 7)]) :=
  (C3_encode_failure_degrades_to_silent exEnvC3 7 "outputs/videos/scene_7.mp4" [exClipC3]
    rfl).1 ⟨exClipC3, List.mem_cons_self _ _, rfl⟩ rfl

/-- The merger's filter preserves relative order: the valid videos form a
sublist of the non-absent entries. -/
theorem validVideos_sublist (env : Env) :
    ∀ composed_videos : List (Option String),
    List.Sublist (validVideos env composed_videos) (composed_videos.filterMap id) := by
  intro l
  induction l with
  | nil => simp [validVideos]
  | cons v rest ih =>
    cases v with
    | none => simpa [validVideos, List.filterMap_cons] using ih
    | some s =>
      by_cases hs : s = ""
      · subst hs
        simp only [validVideos, List.filterMap_cons] at *
        exact ih.cons _
      · by_cases hf : env.fexists s
        · simp only [validVideos, List.filterMap_cons, hs, hf, if_true, if_false] at *
          exact ih.cons₂ _
        · simp only [validVideos, List.filterMap_cons, hs, hf, if_false] at *
          exact ih.cons _

/-- C4: `merge_scenes` filters its input to the truthy entries whose files
exist, preserving relative order; an empty filtered set returns `none`
without writing a manifest or running a command; a non-empty filtered set
writes a manifest listing exactly those entries in that order, runs exactly
one concat-encode command, and on its success returns the single final reel
path. -/
theorem C4_merge_filters_and_manifest_order (env : Env)
    (composed_videos : List (Option String)) :
    List.Sublist (validVideos env composed_videos) (composed_videos.filterMap id) ∧
    (validVideos env composed_videos = [] →
      merge_scenes env composed_videos = { result := none, manifest := none, cmds := [] }) ∧
    (validVideos env composed_videos ≠ [] →
      (merge_scenes env composed_videos).manifest
          = some ((validVideos env composed_videos).map (manifestLine env)) ∧
      (merge_scenes env composed_videos).cmds = [mergeCmd] ∧
      (env.encodeOk mergeCmd = true →
        (merge_scenes env composed_videos).result = some finalReelPath)) := by
  refine ⟨validVideos_sublist env composed_videos, ?_, ?_⟩
  · intro h
    simp [merge_scenes, h]
  · intro h
    have he : (validVideos env composed_videos).isEmpty = false := by
      cases hv : validVideos env composed_videos with
      | nil => exact absurd hv h
      | cons a l => rfl
    by_cases henc : env.encodeOk mergeCmd
    · simp [merge_scenes, he, henc]
    · simp [merge_scenes, he, henc]

/-- Environment for the C4 witness: all files exist and the merge encode
succeeds. -/
def exEnvC4 : Env :=
  { fexists := fun _ => true
    ffprobeRun := fun _ => none
    parseFloat := fun _ => none
    encodeOk := fun _ => true
    absolute := fun s => s }

/-- Witness for C4: merging `[some a, none, some b]` writes the manifest
for `a` then `b` and succeeds. -/
theorem C4_merge_filters_and_manifest_order_witness :
    (merge_scenes exEnvC4 [some "a.mp4", none, some "b.mp4"]).manifest
        = some [manifestLine exEnvC4 "a.mp4", manifestLine exEnvC4 "b.mp4"] ∧
    (merge_scenes exEnvC4 [some "a.mp4", none, some "b.mp4"]).cmds = [mergeCmd] ∧
    (merge_scenes exEnvC4 [some "a.mp4", none, some "b.mp4"]).result = some finalReelPath := by
  have h := (C4_merge_filters_and_manifest_order exEnvC4
    [some "a.mp4", none, some "b.mp4"]).2.2 (by decide)
  exact ⟨h.1, h.2.1, h.2.2 rfl⟩

/-- `merge_scenes` returns either `none` or the fixed final reel path. -/
theorem merge_result_cases (env : Env) (composed_videos : List (Option String)) :
    (merge_scenes env composed_videos).result = none ∨
    (merge_scenes env composed_videos).result = some finalReelPath := by
  by_cases h : (validVideos env composed_videos).isEmpty <;>
    by_cases henc : env.encodeOk mergeCmd <;>
      simp [merge_scenes, h, henc]

/-- C8: a failing merge encode makes `merge_scenes` return `none` after
running exactly one command (no retry); `main` writes the sidecar exactly
when `merge_scenes` returns a path, exits 1 when it returns `none` and 0
otherwise. -/
theorem C8_merge_failure_is_fatal :
    (∀ (env : Env) (composed_videos : List (Option String)),
      validVideos env composed_videos ≠ [] →
      env.encodeOk mergeCmd = false →
      (merge_scenes env composed_videos).result = none ∧
      (merge_scenes env composed_videos).cmds = [mergeCmd]) ∧
    (∀ (env : Env) (video_paths : List String) (audio_data : List (Nat × List AudioInfo)),
      (mainRun env video_paths audio_data).sidecar
          = (merge_scenes env (composeAll env video_paths (audioByScene audio_data))).result ∧
      ((merge_scenes env (composeAll env video_paths (audioByScene audio_data))).result = none
        → (mainRun env video_paths audio_data).exitCode = 1) ∧
      ((merge_scenes env (composeAll env video_paths (audioByScene audio_data))).result ≠ none
        → (mainRun env video_paths audio_data).exitCode = 0)) := by
  constructor
  · intro env composed_videos h henc
    have he : (validVideos env composed_videos).isEmpty = false := by
      cases hv : validVideos env composed_videos with
      | nil => exact absurd hv h
      | cons a l => rfl
    constructor <;> simp [merge_scenes, he, henc]
  · intro env video_paths audio_data
    rcases merge_result_cases env (composeAll env video_paths (audioByScene audio_data))
      with hm | hm
    · refine ⟨?_, ?_, ?_⟩
      · simp [mainRun, hm]
      · intro _; simp [mainRun, hm]
      · intro hne; exact absurd hm hne
    · have hp : finalReelPath = "" ↔ False := by simp [finalReelPath]
      refine ⟨?_, ?_, ?_⟩
      · simp [mainRun, hm, finalReelPath]
      · intro h0; rw [hm] at h0; cases h0
      · intro _; simp [mainRun, hm, finalReelPath]

/-- Environment for the C8 witness: all files exist, every encode fails. -/
def exEnvC8 : Env :=
  { fexists := fun _ => true
    ffprobeRun := fun _ => none
    parseFloat := fun _ => none
    encodeOk := fun _ => false
    absolute := fun s => s }

/-- Witness for C8: with one valid composed video and a failing merge
encode, `merge_scenes` returns `none` after one command, and the run with
one scene exits 1 without writing the sidecar. -/
theorem C8_merge_failure_is_fatal_witness :
    (merge_scenes exEnvC8 [some "a.mp4"]).result = none ∧
    (merge_scenes exEnvC8 [some "a.mp4"]).cmds = [mergeCmd] ∧
    (mainRun exEnvC8 ["v1.mp4"] []).sidecar = none ∧
    (mainRun exEnvC8 ["v1.mp4"] []).exitCode = 1 := by
  have h1 := C8_merge_failure_is_fatal.1 exEnvC8 [some "a.mp4"] (by decide) rfl
  have h2 := C8_merge_failure_is_fatal.2 exEnvC8 ["v1.mp4"] []
  refine ⟨h1.1, h1.2, ?_, h2.2.1 rfl⟩
  rw [h2.1]
  rfl

/-- C7: the duration prober is a total function; when the `ffprobe`
invocation raises, or its stripped stdout does not parse as a float, it
returns exactly 5.0, and when both steps succeed it returns the parsed
floating-point duration — no error ever reaches the caller. -/
theorem C7_probe_failure_defaults (env : Env) (file_path : String) :
    (env.ffprobeRun file_path = none → get_media_duration env file_path = 5) ∧
    (∀ out, env.ffprobeRun file_path = some out →
      env.parseFloat (pyStrip out) = none → get_media_duration env file_path = 5) ∧
    (∀ out q, env.ffprobeRun file_path = some out →
      env.parseFloat (pyStrip out) = some q → get_media_duration env file_path = q) := by
  refine ⟨?_, ?_, ?_⟩
  · intro h
    simp [get_media_duration, h]
  · intro out hrun hparse
    simp [get_media_duration, hrun, hparse]
  · intro out q hrun hparse
    simp [get_media_duration, hrun, hparse]

/-- Environment for the C7 witness: `ffprobe` on `gone.mp4` raises, on
`noise.mp4` prints non-numeric output, on `ok.mp4` prints ` 7.5 `. -/
def exEnvC7 : Env :=
  { fexists := fun _ => true
    ffprobeRun := fun p =>
      if p = "gone.mp4" then none
      else if p = "noise.mp4" then some "N/A" else some " 7.5 "
    parseFloat := fun s => if s = "7.5" then some (15 / 2) else none
    encodeOk := fun _ => true
    absolute := fun s => s }

/-- Witness for C7: a raising probe and an unparsable probe both default to
5.0 and a successful probe returns the parsed value. -/
theorem C7_probe_failure_defaults_witness :
    get_media_duration exEnvC7 "gone.mp4" = 5 ∧
    get_media_duration exEnvC7 "noise.mp4" = 5 ∧
    get_media_duration exEnvC7 "ok.mp4" = 15 / 2 :=
  ⟨(C7_probe_failure_defaults exEnvC7 "gone.mp4").1 rfl,
   (C7_probe_failure_defaults exEnvC7 "noise.mp4").2.1 "N/A" rfl rfl,
   (C7_probe_failure_defaults exEnvC7 "ok.mp4").2.2 " 7.5 " (15 / 2) rfl rfl⟩

/-- C9: for a non-negative start offset `t`, the delay written into the
adelay filter entry is the integer obtained by truncating `t * 1000`
(truncation toward zero, which is the floor for `t ≥ 0`), and the identical
truncated value is written for both the left and the right channel. -/
theorem C9_delay_truncated_both_channels (t : ℚ) (ht : 0 ≤ t) (audio_idx idx : Nat) :
    pyInt (t * 1000) = ⌊t * 1000⌋ ∧
    adelayPart audio_idx idx t
      = "[" ++ toString audio_idx ++ ":a]adelay=" ++ toString ⌊t * 1000⌋ ++ "|"
          ++ toString ⌊t * 1000⌋ ++ "[a" ++ toString idx ++ "]" := by
  have h0 : 0 ≤ t * 1000 := mul_nonneg ht (by norm_num)
  have hp : pyInt (t * 1000) = ⌊t * 1000⌋ := by simp [pyInt, h0]
  exact ⟨hp, by rw [adelayPart, hp]⟩

/-- Witness for C9: at offset 0.2345 s the filter entry carries 234 ms on
both channels — the truncation of 234.5, where rounding would give 235. -/
theorem C9_delay_truncated_both_channels_witness :
    adelayPart 1 0 0.2345 = "[1:a]adelay=234|234[a0]" ∧
    (0.2345 : ℚ) * 1000 = 469 / 2 := by
  have h := (C9_delay_truncated_both_channels 0.2345 (by norm_num) 1 0).2
  have hf : ⌊(0.2345 : ℚ) * 1000⌋ = 234 := by norm_num
  rw [h, hf]
  refine ⟨rfl, ?_⟩
  norm_num

/-- The agreement relation of C10: two dialogue records that coincide on
every field except possibly `order`. -/
def sameExceptOrder (a b : AudioInfo) : Prop :=
  a.path = b.path ∧ a.character = b.character ∧ a.text = b.text ∧ a.scene_id = b.scene_id

/-- The scheduling loop reads only the `path` field of a record. -/
theorem composeLoop_congr_paths (env : Env) {l1 l2 : List AudioInfo}
    (h : List.Forall₂ (fun a b => a.path = b.path) l1 l2) :
    ∀ (idx : Nat) (st : LoopState),
    composeLoop env l1 idx st = composeLoop env l2 idx st := by
  induction h with
  | nil => intro idx st; rfl
  | @cons a b t1 t2 hab hrest ih =>
    intro idx st
    simp only [composeLoop, hab]
    by_cases hb : env.fexists b.path
    · rw [if_pos hb, if_pos hb, ih]
    · rw [if_neg hb, if_neg hb, ih]

/-- C10: `compose_scene` never reads the `order` field — two dialogue lists
that agree on every field except `order`, position by position, yield the
same return value and the same command list. -/
theorem C10_order_field_not_read (env : Env) (scene_id : Nat) (video_path : String)
    (l1 l2 : List AudioInfo) (h : List.Forall₂ sameExceptOrder l1 l2) :
    compose_scene env scene_id video_path l1 = compose_scene env scene_id video_path l2 := by
  have hpaths : List.Forall₂ (fun a b => a.path = b.path) l1 l2 :=
    h.imp (fun _ _ hab => hab.1)
  have hloop := composeLoop_congr_paths env hpaths 0 (initState video_path)
  have hempty : l1.isEmpty = l2.isEmpty := by
    cases l1 with
    | nil => cases hpaths; rfl
    | cons a t1 =>
      cases l2 with
      | nil => cases hpaths
      | cons b t2 => rfl
  unfold compose_scene
  rw [hloop, hempty]

/-- Two single-clip lists for the C10 witness, identical except for the
`order` value. -/
def exClipOrder1 : AudioInfo :=
  { path := "outputs/audio/scene2_behen_1.mp3", character := "behen", text := "t",
    scene_id := 2, order := 1 }

/-- The same record as `exClipOrder1` with a different `order`. -/
def exClipOrder9 : AudioInfo :=
  { path := "outputs/audio/scene2_behen_1.mp3", character := "behen", text := "t",
    scene_id := 2, order := 9 }

/-- Witness for C10: changing only the `order` field leaves the composition
outcome unchanged. -/
theorem C10_order_field_not_read_witness :
    compose_scene exEnvC4 2 "outputs/videos/scene_2.mp4" [exClipOrder1]
      = compose_scene exEnvC4 2 "outputs/videos/scene_2.mp4" [exClipOrder9] :=
  C10_order_field_not_read exEnvC4 2 "outputs/videos/scene_2.mp4" [exClipOrder1] [exClipOrder9]
    (List.Forall₂.cons ⟨rfl, rfl, rfl, rfl⟩ List.Forall₂.nil)

/-- Environment for the C2 failing input: the first dialogue file is
missing, every other file exists. -/
def exEnvC2 : Env :=
  { fexists := fun p => !(p == "outputs/audio/scene1_maa_1.mp3")
    ffprobeRun := fun _ => none
    parseFloat := fun _ => none
    encodeOk := fun _ => false
    absolute := fun s => s }

/-- The C2 failing input: a missing clip followed by an existing clip. -/
def exFilesC2 : List AudioInfo :=
  [{ path := "outputs/audio/scene1_maa_1.mp3", character := "maa", text := "t1",
     scene_id := 1, order := 1 },
   { path := "outputs/audio/scene1_baap_2.mp3", character := "baap", text := "t2",
     scene_id := 1, order := 2 }]

/-- C2 (failing input): with the first clip missing and the second present,
the loop supplies only two inputs (indices 0 and 1: the video and the
surviving clip), yet its delay filter addresses input stream `[2:a]` — the
original list position plus one, not the position among the inputs actually
supplied — and labels its output `[a1]`, while the amix stage consumes
`[a0]`; the generated filter graph therefore references an input index and
a mix label that do not exist, so the mix command is not consistent with
the inputs supplied and the scene is not composed from the remaining
clips. -/
theorem C2_mix_graph_inconsistent_on_leading_missing_clip :
    (composeLoop exEnvC2 exFilesC2 0 (initState "outputs/videos/scene_1.mp4")).audioInputs
        = ["-i", "outputs/videos/scene_1.mp4", "-i", "outputs/audio/scene1_baap_2.mp3"] ∧
    (composeLoop exEnvC2 exFilesC2 0 (initState "outputs/videos/scene_1.mp4")).filterParts
        = ["[2:a]adelay=200|200[a1]"] ∧
    mixFilterComplex ["[2:a]adelay=200|200[a1]"]
        = "[2:a]adelay=200|200[a1];[a0]amix=inputs=1:duration=longest[aout]" := by
  have h1 : exEnvC2.fexists "outputs/audio/scene1_maa_1.mp3" = false := rfl
  have h2 : exEnvC2.fexists "outputs/audio/scene1_baap_2.mp3" = true := rfl
  have hms : pyInt ((0.2 : ℚ) * 1000) = 200 := by norm_num [pyInt]
  have ha : adelayPart 2 1 0.2 = "[2:a]adelay=200|200[a1]" := by
    unfold adelayPart
    rw [hms]
    rfl
  refine ⟨?_, ?_, rfl⟩
  · simp [composeLoop, exFilesC2, h1, h2, initState]
  · simp [composeLoop, exFilesC2, h1, h2, initState, ha]

end ComposeScenes
